import Mathlib

/-!
Verification of the bitcask-rs key-value store core against its
natural-language specification.

The development shallowly embeds the Rust source (crate `bitcask`):

* `src/repr.rs`   — record codec (`Header`, `Entry`);
* `src/test/mod.rs` — the deterministic in-memory file system
  (`TestFileSystem`, `TestFile`) over which the store's tests run;
* `src/fs/mod.rs` — the `Fs` file layer (write cursor, active file);
* `src/lib.rs`    — the `Cask` store (`insert`, `get`, `remove`,
  `new_with_fs_impl` plus the `HeaderIter` recovery scan);
* `src/compactor.rs` — the sans-I/O compaction state machine.

Machine integers are modelled as `Nat` with explicit truncation
(`% 2^w`) where the source performs an `as` cast; byte buffers are
`List Nat`; `Instant`/`Duration` are seconds as `Nat`, with
`Instant::duration_since` modelled as truncated subtraction (it
saturates at zero); fallible operations return `Except`.
-/

/-- Little-endian byte encoding of `n`, `w` bytes wide (truncating,
as the in-memory representation of a `uN` field does). -/
def leBytes : Nat → Nat → List Nat
  | 0, _ => []
  | w + 1, n => (n % 256) :: leBytes w (n / 256)

/-- Little-endian read of a whole byte list. -/
def readLE : List Nat → Nat
  | [] => 0
  | b :: rest => b + 256 * readLE rest

/-- `Header` from `src/repr.rs`: the packed `repr(C)` record header
`{ tombstone: u8, timestamp: u64, key_size: u16, value_size: u32 }`. -/
structure Header where
  tombstone : Nat
  timestamp : Nat
  key_size : Nat
  value_size : Nat
  deriving Repr, DecidableEq

namespace Header

/-- `Header::IS_DELETED`. -/
def IS_DELETED : Nat := 1

/-- `Header::NOT_DELETED`. -/
def NOT_DELETED : Nat := 0

/-- `Header::LEN = mem::size_of::<Header>()` for the packed struct:
1 + 8 + 2 + 4 = 15 bytes. -/
def LEN : Nat := 15

/-- `Header::data_size`: `value_size.saturating_add(key_size as u32)`. -/
def data_size (h : Header) : Nat :=
  min (h.value_size + h.key_size) (2 ^ 32 - 1)

/-- `Header::entry_size`: `Header::LEN + data_size`. -/
def entry_size (h : Header) : Nat :=
  LEN + h.data_size

/-- `Header::serialize` = `bytemuck::bytes_of(self)`: the bytes of the
packed struct on a little-endian machine, i.e. each field's
little-endian bytes at offsets 0, 1..9, 9..11, 11..15. -/
def serialize (h : Header) : List Nat :=
  leBytes 1 h.tombstone ++ leBytes 8 h.timestamp ++
    leBytes 2 h.key_size ++ leBytes 4 h.value_size

/-- `bytemuck::try_from_bytes::<Header>` on a byte buffer: succeeds
exactly when the buffer is the size of the packed struct, and then
reinterprets the bytes as the struct's fields. -/
def decode (buf : List Nat) : Option Header :=
  if buf.length = LEN then
    some { tombstone := readLE ((buf.drop 0).take 1)
         , timestamp := readLE ((buf.drop 1).take 8)
         , key_size := readLE ((buf.drop 9).take 2)
         , value_size := readLE ((buf.drop 11).take 4) }
  else
    none

end Header

/-- `EntryError` from `src/repr.rs`: its only variant wraps a
`SystemTimeError` from the clock read. -/
inductive EntryError where
  | time
  deriving Repr, DecidableEq

/-- `Entry` from `src/repr.rs`: a record to be written to a data file. -/
structure Entry where
  header : Header
  key : List Nat
  value : Option (List Nat)
  deriving Repr, DecidableEq

namespace Entry

/-- `Entry::new_encoded`. The clock read
(`SystemTime::now().duration_since(UNIX_EPOCH)?.as_secs()`) is passed
in as an `Except` value; it is the only fallible step. The
`debug_assert!` size checks compile away in release builds and in any
case never produce an error value; the `as u16` / `as u32` casts
truncate. -/
def new_encoded (key value : List Nat) (clock : Except EntryError Nat) :
    Except EntryError Entry := do
  let timestamp ← clock
  pure { header := { tombstone := Header.NOT_DELETED
                   , timestamp := timestamp
                   , key_size := key.length % 2 ^ 16
                   , value_size := value.length % 2 ^ 32 }
       , key := key
       , value := some value }

/-- `Entry::new_empty`: the tombstone record for a deleted key. -/
def new_empty (key : List Nat) : Entry :=
  { header := { tombstone := Header.IS_DELETED
              , timestamp := 0
              , key_size := key.length % 2 ^ 16
              , value_size := 0 }
  , key := key
  , value := none }

/-- `Entry::serialize`: header bytes, then key bytes, then value bytes
(empty for a tombstone). -/
def serialize (e : Entry) : List Nat :=
  e.header.serialize ++ e.key ++ e.value.getD []

/-- `Entry::is_tombstone`. -/
def is_tombstone (e : Entry) : Bool :=
  e.header.tombstone = Header.IS_DELETED

end Entry

/-- The `io::Error` kinds produced by the in-memory file system:
`NotFound` (unknown file handle) and `UnexpectedEof` (read past the
end of a file). -/
inductive IoError where
  | notFound
  | unexpectedEof
  deriving Repr, DecidableEq

/-- `FsError` from `src/fs/mod.rs`: wraps an `io::Error`. -/
inductive FsError where
  | io (e : IoError)
  deriving Repr, DecidableEq

/-- Overwrite `buf` into `l` at `offset`, growing `l` with zeros first
if `offset + buf.length` exceeds its length (the body of
`TestFile::write_at`). -/
def listWrite (l : List Nat) (offset : Nat) (buf : List Nat) : List Nat :=
  let resized :=
    if offset + buf.length > l.length then
      l ++ List.replicate (offset + buf.length - l.length) 0
    else l
  resized.take offset ++ buf ++ resized.drop (offset + buf.length)

/-- `TestFile` from `src/test/mod.rs`: an in-memory file. `buf` is the
backing vector (created as 64 zero bytes) and `pos` accumulates the
number of bytes written; `len()` reports `pos`. -/
structure TestFile where
  buf : List Nat
  pos : Nat
  deriving Repr, DecidableEq

namespace TestFile

/-- `TestFile::new`. -/
def new : TestFile :=
  { buf := List.replicate 64 0, pos := 0 }

/-- `TestFile::write_at`. -/
def write_at (f : TestFile) (offset : Nat) (buf : List Nat) : TestFile :=
  { buf := listWrite f.buf offset buf, pos := f.pos + buf.length }

/-- `TestFile::read_at`: copies `n` bytes of `buf` starting at
`offset` (bounds were checked by the caller against `len()`). -/
def read_at (f : TestFile) (offset n : Nat) : List Nat :=
  (f.buf.drop offset).take n

/-- `TestFile::len`. -/
def len (f : TestFile) : Nat := f.pos

end TestFile

/-- `TestFileSystem` from `src/test/mod.rs`: a map from file
descriptors to in-memory files plus the current active descriptor.
`Fd` is a newtype over `usize`, modelled as `Nat`. -/
structure TestFs where
  buffers : List (Nat × TestFile)
  active : Nat
  deriving Repr, DecidableEq

/-- Association-list lookup (the shallow embedding of `HashMap::get`). -/
def alistLookup : List (Nat × TestFile) → Nat → Option TestFile
  | [], _ => none
  | (k, v) :: rest, fd => if k = fd then some v else alistLookup rest fd

/-- Association-list in-place update (`HashMap::get_mut` followed by a
write through the reference). -/
def alistUpdate (l : List (Nat × TestFile)) (fd : Nat) (f : TestFile) :
    List (Nat × TestFile) :=
  l.map fun p => if p.1 = fd then (p.1, f) else p

namespace TestFs

/-- `TestFileSystem::write_at`: writes the whole buffer into the named
file and returns its length, or fails with `NotFound` when the handle
is unknown. -/
def write_at (s : TestFs) (fd : Nat) (buf : List Nat) (offset : Nat) :
    Except IoError (TestFs × Nat) :=
  match alistLookup s.buffers fd with
  | some f =>
      .ok ({ s with buffers := alistUpdate s.buffers fd (f.write_at offset buf) },
           buf.length)
  | none => .error IoError.notFound

/-- `TestFileSystem::read_exact_at`. -/
def read_exact_at (s : TestFs) (fd : Nat) (n : Nat) (offset : Nat) :
    Except IoError (List Nat) :=
  match alistLookup s.buffers fd with
  | none => .error IoError.notFound
  | some f =>
      if f.len < offset ∨ offset + n > f.len then
        .error IoError.unexpectedEof
      else
        .ok (f.read_at offset n)

/-- `TestFileSystem::file_size`. -/
def file_size (s : TestFs) (fd : Nat) : Except IoError Nat :=
  match alistLookup s.buffers fd with
  | some f => .ok f.len
  | none => .error IoError.notFound

/-- `TestFileSystem::active`. -/
def activeFd (s : TestFs) : Nat := s.active

/-- `TestFileSystem::init`: one fresh file under `Fd::new_empty()` (0). -/
def init : TestFs :=
  { buffers := [(0, TestFile.new)], active := 0 }

/-- `TestFileSystem::new_active`: increments the active descriptor and
registers a fresh file under it. It cannot fail. -/
def new_active (s : TestFs) : TestFs × Nat :=
  let newActive := s.active + 1
  ({ buffers := (newActive, TestFile.new) :: s.buffers, active := newActive },
   newActive)

end TestFs

/-- `CacheEntry` from `src/lib.rs`: the index locator
`{ fd, value_size, offset, timestamp }`. -/
structure CacheEntry where
  fd : Nat
  value_size : Nat
  offset : Nat
  timestamp : Nat
  deriving Repr, DecidableEq

/-- `CacheEntry::data_offset`: `offset + Header::LEN`. -/
def CacheEntry.data_offset (ce : CacheEntry) : Nat :=
  ce.offset + Header.LEN

/-- `Fs` / `FsInner` from `src/fs/mod.rs`, instantiated at the
deterministic `TestFileSystem`: the wrapped file-system
implementation, the write cursor into the active file, and the cached
active descriptor. The `RwLock` disappears in this sequential model. -/
structure Fs where
  fs_impl : TestFs
  cursor : Nat
  active_fd : Nat
  deriving Repr, DecidableEq

namespace Fs

/-- `Fs::new`: wraps the implementation, caching its active descriptor
and starting the cursor at 0 (regardless of any existing file
contents). -/
def new (fs : TestFs) : Fs :=
  { fs_impl := fs, cursor := 0, active_fd := fs.activeFd }

/-- `Fs::active_size`: returns the in-memory write cursor. -/
def active_size (s : Fs) : Nat := s.cursor

/-- `Fs::active_fd` (the accessor). -/
def activeFd (s : Fs) : Nat := s.active_fd

/-- `Fs::write_entry`: serializes the entry, writes it at the cursor
of the active file (`TestFileSystem::write_at` always writes the whole
buffer, so the retry loop runs once), flushes (a no-op), advances the
cursor, and returns the locator for the written record. The locator's
descriptor is re-read from `fs_impl.active()`. -/
def write_entry (s : Fs) (entry : Entry) : Except FsError (Fs × CacheEntry) :=
  let buf := entry.serialize
  match s.fs_impl.write_at s.active_fd buf s.cursor with
  | .error e => .error (FsError.io e)
  | .ok (impl, size) =>
      let current := s.cursor
      .ok ({ s with fs_impl := impl, cursor := s.cursor + size },
           { fd := impl.activeFd
           , value_size := entry.header.value_size
           , offset := current
           , timestamp := entry.header.timestamp })

/-- `Fs::get_chunk`: a positional read of `n` bytes from the *active*
file. -/
def get_chunk (s : Fs) (offset n : Nat) : Except FsError (List Nat) :=
  match s.fs_impl.read_exact_at s.active_fd n offset with
  | .ok buf => .ok buf
  | .error e => .error (FsError.io e)

/-- `Fs::get_chunk_fd`: a positional read from the file named by `fd`. -/
def get_chunk_fd (s : Fs) (offset n : Nat) (fd : Nat) :
    Except FsError (List Nat) :=
  match s.fs_impl.read_exact_at fd n offset with
  | .ok buf => .ok buf
  | .error e => .error (FsError.io e)

/-- `Fs::swap_active`: asks the implementation for a new active file,
then installs its descriptor and resets the cursor to 0. -/
def swap_active (s : Fs) : Fs :=
  let (impl, newActive) := s.fs_impl.new_active
  { fs_impl := impl, cursor := 0, active_fd := newActive }

/-- `Fs::update_cursor`. -/
def update_cursor (s : Fs) (loc : Nat) : Fs :=
  { s with cursor := loc }

end Fs

/-- `CaskError` from `src/lib.rs`. -/
inductive CaskError where
  | fs (e : FsError)
  | cast
  | entry (e : EntryError)
  | notFound
  deriving Repr, DecidableEq

/-- The key directory: `HashMap<Vec<u8>, CacheEntry>` as an
association list with unique keys. -/
abbrev KeyDir := List (List Nat × CacheEntry)

/-- `HashMap::get` on the key directory. -/
def kdLookup : KeyDir → List Nat → Option CacheEntry
  | [], _ => none
  | (k, v) :: rest, key => if k = key then some v else kdLookup rest key

/-- `HashMap::insert` / the `entry(..).and_modify(..).or_insert_with(..)`
upsert: the new binding replaces any existing binding of the key. -/
def kdInsert (kd : KeyDir) (key : List Nat) (ce : CacheEntry) : KeyDir :=
  (key, ce) :: kd.filter fun p => p.1 ≠ key

/-- `HashMap::remove`. -/
def kdRemove (kd : KeyDir) (key : List Nat) : KeyDir :=
  kd.filter fun p => p.1 ≠ key

/-- `Cask` / `Inner` from `src/lib.rs` (the worker pool plays no part
in the store operations and is omitted): the file layer, the key
directory, and `Config::active_threshold`. -/
structure Cask where
  fs : Fs
  keydir : KeyDir
  threshold : Nat
  deriving Repr, DecidableEq

namespace Cask

/-- `Cask::insert`: encode the entry (reading the clock), append it to
the active file, then — if `active_size() >= active_threshold` — swap
the active file, and finally upsert the key directory with the locator
returned by the append. -/
def insert (c : Cask) (key value : List Nat) (clock : Except EntryError Nat) :
    Except CaskError Cask :=
  match Entry.new_encoded key value clock with
  | .error e => .error (CaskError.entry e)
  | .ok entry =>
      match c.fs.write_entry entry with
      | .error e => .error (CaskError.fs e)
      | .ok (fs1, ce) =>
          let fs2 := if fs1.active_size ≥ c.threshold then fs1.swap_active else fs1
          .ok { c with fs := fs2, keydir := kdInsert c.keydir key ce }

/-- `Cask::get`: look the key up in the key directory, read the
15-byte header at the locator's offset *from the active file*, cast it
(`bytemuck::try_from_bytes`), read `data_size()` bytes at
`data_offset()` (again from the active file), and return the bytes
after the key. -/
def get (c : Cask) (key : List Nat) : Except CaskError (List Nat) :=
  match kdLookup c.keydir key with
  | none => .error CaskError.notFound
  | some ce =>
      match c.fs.get_chunk ce.offset Header.LEN with
      | .error e => .error (CaskError.fs e)
      | .ok buf =>
          match Header.decode buf with
          | none => .error CaskError.cast
          | some header =>
              match c.fs.get_chunk ce.data_offset header.data_size with
              | .error e => .error (CaskError.fs e)
              | .ok data => .ok (data.drop header.key_size)

/-- `Cask::remove`: build the tombstone entry; if the key directory
holds the key, remove it and only then append the tombstone,
propagating any append failure; if the key is absent, succeed without
touching the file layer. The Rust method mutates `self` and returns
`Result<(), CaskError>`; the model returns the post-state with the
result. -/
def remove (c : Cask) (key : List Nat) : Cask × Except CaskError Unit :=
  let tombstone := Entry.new_empty key
  match kdLookup c.keydir key with
  | some _ =>
      let c1 := { c with keydir := kdRemove c.keydir key }
      match c1.fs.write_entry tombstone with
      | .ok (fs1, _) => ({ c1 with fs := fs1 }, .ok ())
      | .error e => (c1, .error (CaskError.fs e))
  | none => (c, .ok ())

end Cask

/-- The recovery scan of `Cask::new_with_fs_impl`: the `for` loop over
`HeaderIter`. Each step re-reads `fs.active_size()`, stops when the
offset has reached it, otherwise reads and casts the 15-byte header at
the current offset, reads the `key_size` key bytes after it, inserts
`(key, CacheEntry { fd := active_fd, value_size, offset, timestamp })`
into the map (for every record — `HeaderIter` never looks at the
tombstone flag), and advances the offset by `entry_size()`. -/
def recoverLoop (fs : Fs) (active_fd : Nat) (current : Nat) (map : KeyDir) :
    Except CaskError KeyDir :=
  if _h : current < fs.active_size then
    match fs.get_chunk current Header.LEN with
    | .error e => .error (CaskError.fs e)
    | .ok buf =>
        match Header.decode buf with
        | none => .error CaskError.cast
        | some header =>
            match fs.get_chunk (current + Header.LEN) header.key_size with
            | .error e => .error (CaskError.fs e)
            | .ok keyBuf =>
                let ce : CacheEntry :=
                  { fd := active_fd
                  , value_size := header.value_size
                  , offset := current
                  , timestamp := header.timestamp }
                recoverLoop fs active_fd (current + header.entry_size)
                  (kdInsert map keyBuf ce)
  else
    .ok map
termination_by fs.active_size - current
decreasing_by
  have h15 : Header.LEN ≤ header.entry_size := by
    simp [Header.entry_size]
  simp only [Header.LEN] at h15
  omega

/-- `Cask::new_with_fs_impl` (open): wrap the implementation in
`Fs::new`; if `active_size()` is positive, rebuild the key directory
by the recovery scan and set the cursor to `active_size()`; otherwise
start with an empty key directory. -/
def Cask.openCask (fsImpl : TestFs) (threshold : Nat) : Except CaskError Cask :=
  let fs := Fs.new fsImpl
  let size := fs.active_size
  if 0 < size then
    match recoverLoop fs fs.activeFd 0 [] with
    | .error e => .error e
    | .ok map =>
        let fs1 := fs.update_cursor fs.active_size
        .ok { fs := fs1, keydir := map, threshold := threshold }
  else
    .ok { fs := fs, keydir := [], threshold := threshold }

/-- `State` from `src/compactor.rs`: waiting (with the `Instant` at
which the wait began) or actively compacting. -/
inductive CState where
  | wait (since : Nat)
  | compact
  deriving Repr, DecidableEq

/-- `Operation` from `src/compactor.rs`: the units of work the state
machine asks its driver to perform. -/
inductive Operation where
  | ignore
  | checkFile
  | checkKeydir (key : List Nat)
  | addImmutable
  | addHint
  deriving Repr, DecidableEq

/-- `Input` from `src/compactor.rs`: what the driver feeds back. -/
inductive CInput where
  | entry (e : Entry)
  | fileEnd (now : Nat)
  | matchKeydir
  | notMatchKeydir
  deriving Repr, DecidableEq

/-- `Compactor` from `src/compactor.rs`: a FIFO operation queue
(`VecDeque`, pushed at the back, popped at the front) plus the state. -/
structure Compactor where
  operations : List Operation
  state : CState
  deriving Repr, DecidableEq

namespace Compactor

/-- `Duration::from_secs(60 * 60)`. -/
def HOUR : Nat := 60 * 60

/-- `Compactor::new`: starts in `Compact` with `CheckFile` queued. -/
def new : Compactor :=
  { operations := [Operation.checkFile], state := CState.compact }

/-- `Compactor::handle_input`. In `Wait` every input is ignored. In
`Compact`, an `Entry` input falls through to the commented-out
tombstone/`CheckKeydir` classification and so does nothing;
`MatchKeydir` queues `AddImmutable` then `AddHint`; `NotMatchkeydir`
queues `Ignore`; `End(now)` moves to `Wait(now)`. -/
def handle_input (c : Compactor) (input : CInput) : Compactor :=
  match c.state with
  | CState.wait _ => c
  | CState.compact =>
      match input with
      | CInput.entry _ => c
      | CInput.matchKeydir =>
          { c with operations :=
              c.operations ++ [Operation.addImmutable, Operation.addHint] }
      | CInput.notMatchKeydir =>
          { c with operations := c.operations ++ [Operation.ignore] }
      | CInput.fileEnd now => { c with state := CState.wait now }

/-- `Compactor::handle_timeout`: returns immediately in `Compact`; in
`Wait(at)` it computes `at.duration_since(now)` — which saturates to
zero whenever `now ≥ at`, and is modelled by truncated subtraction —
and returns early when that is under an hour; otherwise it queues
`CheckFile` and re-enters `Compact`. -/
def handle_timeout (c : Compactor) (now : Nat) : Compactor :=
  match c.state with
  | CState.compact => c
  | CState.wait last_sleep =>
      if last_sleep - now < HOUR then
        c
      else
        { operations := c.operations ++ [Operation.checkFile]
        , state := CState.compact }

/-- `Compactor::poll_transmit`: pops the front of the queue. -/
def poll_transmit (c : Compactor) : Option Operation × Compactor :=
  match c.operations with
  | [] => (none, c)
  | op :: rest => (some op, { c with operations := rest })

/-- `Compactor::poll_timeout`. -/
def poll_timeout (c : Compactor) : Option Nat :=
  match c.state with
  | CState.compact => none
  | CState.wait since => some (since + HOUR)

end Compactor

/-- A concrete store over a fresh in-memory file system whose key
directory maps the single key `[1]` (as left by a put of `[1]`); used
to instantiate the general theorems below. -/
def caskA : Cask :=
  { fs := Fs.new TestFs.init
  , keydir := [([1], { fd := 0, value_size := 1, offset := 0, timestamp := 0 })]
  , threshold := 4096 }

/-- A concrete empty store whose `active_threshold` (17) equals the
on-disk size of the record `put([1], [2])`, so that that put triggers
rotation. -/
def caskB : Cask :=
  { fs := Fs.new TestFs.init, keydir := [], threshold := 17 }

/-- The store state produced by `caskB.insert [1] [2]` at timestamp 0:
the 17-byte record filled the active file to the threshold, so the
active file was rotated to descriptor 1 and the cursor reset. -/
def caskBInserted : Cask :=
  { fs := { fs_impl :=
              { buffers :=
                  [(1, TestFile.new),
                   (0, { buf := [0, 0, 0, 0, 0, 0, 0, 0, 0, 1, 0, 1, 0, 0, 0, 1, 2]
                                  ++ List.replicate 47 0
                       , pos := 17 })]
              , active := 1 }
          , cursor := 0
          , active_fd := 1 }
  , keydir := [([1], { fd := 0, value_size := 1, offset := 0, timestamp := 0 })]
  , threshold := 17 }

/-- The entry built by `Entry::new_encoded([1], [2])` at timestamp 3. -/
def entryA : Entry :=
  { header := { tombstone := 0, timestamp := 3, key_size := 1, value_size := 1 }
  , key := [1], value := some [2] }

/-! ### Shared auxiliary lemmas -/

theorem leBytes_length (w n : Nat) : (leBytes w n).length = w := by
  induction w generalizing n with
  | zero => rfl
  | succ w ih => simp [leBytes, ih]

theorem readLE_leBytes (w n : Nat) : readLE (leBytes w n) = n % 2 ^ (8 * w) := by
  induction w generalizing n with
  | zero => simp [leBytes, readLE, Nat.mod_one]
  | succ w ih =>
      simp only [leBytes, readLE, ih]
      rw [show (2:Nat) ^ (8 * (w + 1)) = 256 * 2 ^ (8 * w) by ring, Nat.mod_mul]

theorem Header.serialize_length (h : Header) : h.serialize.length = 15 := by
  simp [Header.serialize, leBytes_length]

theorem Entry.serialize_total_length (e : Entry) :
    e.serialize.length = 15 + e.key.length + (e.value.getD []).length := by
  simp [Entry.serialize, List.length_append, Header.serialize_length]
  omega

theorem kdLookup_kdRemove (kd : KeyDir) (key : List Nat) :
    kdLookup (kdRemove kd key) key = none := by
  induction kd with
  | nil => rfl
  | cons p rest ih =>
      by_cases hp : p.1 = key
      · simpa [kdRemove, hp] using ih
      · simpa [kdRemove, kdLookup, hp] using ih

theorem Header.decode_serialize (h : Header) (rest : List Nat)
    (ht : h.tombstone < 2 ^ 8) (hts : h.timestamp < 2 ^ 64)
    (hk : h.key_size < 2 ^ 16) (hv : h.value_size < 2 ^ 32) :
    Header.decode ((h.serialize ++ rest).take 15) = some h := by
  rw [List.take_left' (Header.serialize_length h)]
  have hs1 : h.serialize =
      leBytes 1 h.tombstone ++
        (leBytes 8 h.timestamp ++ (leBytes 2 h.key_size ++ leBytes 4 h.value_size)) := by
    simp [Header.serialize]
  have hs9 : h.serialize =
      (leBytes 1 h.tombstone ++ leBytes 8 h.timestamp) ++
        (leBytes 2 h.key_size ++ leBytes 4 h.value_size) := by
    simp [Header.serialize]
  have hs11 : h.serialize =
      ((leBytes 1 h.tombstone ++ leBytes 8 h.timestamp) ++ leBytes 2 h.key_size) ++
        leBytes 4 h.value_size := by
    simp [Header.serialize]
  have f0 : (h.serialize.drop 0).take 1 = leBytes 1 h.tombstone := by
    rw [List.drop_zero, hs1, List.take_left' (leBytes_length 1 _)]
  have f1 : (h.serialize.drop 1).take 8 = leBytes 8 h.timestamp := by
    rw [hs1, List.drop_left' (leBytes_length 1 _), List.take_left' (leBytes_length 8 _)]
  have f2 : (h.serialize.drop 9).take 2 = leBytes 2 h.key_size := by
    rw [hs9, List.drop_left' (by simp [leBytes_length]),
      List.take_left' (leBytes_length 2 _)]
  have f3 : (h.serialize.drop 11).take 4 = leBytes 4 h.value_size := by
    rw [hs11, List.drop_left' (by simp [leBytes_length]),
      show List.take 4 (leBytes 4 h.value_size) = leBytes 4 h.value_size by
        exact List.take_of_length_le (by simp [leBytes_length])]
  rw [Header.decode, if_pos (show h.serialize.length = Header.LEN from Header.serialize_length h),
    f0, f1, f2, f3]
  simp only [readLE_leBytes]
  rw [Nat.mod_eq_of_lt (show h.tombstone < 2 ^ (8 * 1) by simpa using ht),
    Nat.mod_eq_of_lt (show h.timestamp < 2 ^ (8 * 8) by simpa using hts),
    Nat.mod_eq_of_lt (show h.key_size < 2 ^ (8 * 2) by simpa using hk),
    Nat.mod_eq_of_lt (show h.value_size < 2 ^ (8 * 4) by simpa using hv)]

theorem TestFs.write_at_ok (s : TestFs) (fd : Nat) (buf : List Nat) (off : Nat)
    (s1 : TestFs) (n : Nat) (h : s.write_at fd buf off = .ok (s1, n)) :
    n = buf.length ∧ s1.active = s.active := by
  unfold TestFs.write_at at h
  cases hl : alistLookup s.buffers fd with
  | none => rw [hl] at h; cases h
  | some f =>
      rw [hl] at h
      simp only [Except.ok.injEq, Prod.mk.injEq] at h
      obtain ⟨hs1, hn⟩ := h
      exact ⟨hn.symm, by rw [← hs1]⟩

theorem Fs.write_entry_ok (s : Fs) (e : Entry) (s1 : Fs) (ce : CacheEntry)
    (h : s.write_entry e = .ok (s1, ce)) :
    s1.cursor = s.cursor + e.serialize.length
    ∧ s1.active_fd = s.active_fd
    ∧ s1.fs_impl.active = s.fs_impl.active
    ∧ ce.offset = s.cursor
    ∧ ce.fd = s.fs_impl.active
    ∧ ce.value_size = e.header.value_size
    ∧ ce.timestamp = e.header.timestamp := by
  simp only [Fs.write_entry] at h
  cases hw : s.fs_impl.write_at s.active_fd e.serialize s.cursor with
  | error e' => rw [hw] at h; cases h
  | ok p =>
      obtain ⟨impl, size⟩ := p
      obtain ⟨hsize, hactive⟩ := TestFs.write_at_ok _ _ _ _ _ _ hw
      rw [hw] at h
      simp only [Except.ok.injEq, Prod.mk.injEq] at h
      obtain ⟨hs1, hce⟩ := h
      subst hs1 hce hsize
      simp [TestFs.activeFd, hactive]

/-! ### Claim theorems -/

/-- Claim C1 (the code refutes the durability claim): opening a store
over *any* pre-existing file-system state — in particular the state
left behind by `open(d)` followed by a successful `put(k, v)` — never
rebuilds the index, and a subsequent `get` of any key fails with
`NotFound` instead of returning `v`. The cause: `Fs::new` initialises
the write cursor to 0 and `Fs::active_size` returns that in-memory
cursor rather than the file's size, so the `size > 0` recovery branch
of `Cask::new_with_fs_impl` is unreachable. -/
theorem durability_reopen_get_notFound (impl : TestFs) (threshold : Nat) (key : List Nat) :
    (Cask.openCask impl threshold).bind (fun c => c.get key) =
      .error CaskError.notFound := rfl

/-- Claim C2 (the code refutes the round-trip claim at the rotation
boundary): with `active_threshold = 21`, a fresh store, and the
21-byte record `put([1,2,3,4,5], [6])`, the put rotates the active
file and the following get of the same key fails with an
`UnexpectedEof` I/O error, because `Cask::get` reads through
`Fs::get_chunk`, which always reads the *current active* file and
ignores the locator's file descriptor. The second conjunct shows the
same put/get round-trip succeeding when the put stays below the
threshold (threshold 4096). -/
theorem roundtrip_rotation_get_fails :
    (((Cask.openCask TestFs.init 21).bind fun c =>
        (c.insert [1, 2, 3, 4, 5] [6] (Except.ok 0)).bind fun c1 =>
          c1.get [1, 2, 3, 4, 5])
      = .error (CaskError.fs (FsError.io IoError.unexpectedEof)))
    ∧ (((Cask.openCask TestFs.init 4096).bind fun c =>
        (c.insert [1, 2, 3, 4, 5] [6] (Except.ok 0)).bind fun c1 =>
          c1.get [1, 2, 3, 4, 5])
      = .ok [6]) := ⟨rfl, rfl⟩

/-- Claim C3 (the code refutes the tombstone-removal claim): running
the recovery scan over a 33-byte active file that holds a live record
for key `[107]` (timestamp 5, value `[118]`, bytes 0..17) followed by
a tombstone for the same key (bytes 17..33) produces an index that
still *contains* `[107]`, mapped to the tombstone's locator
(offset 17, value_size 0, timestamp 0) — `HeaderIter` never inspects
the tombstone flag and the loop upserts every record — whereas the
claim requires the key to be absent from the rebuilt index. -/
theorem recovery_scan_tombstone_upsert :
    recoverLoop
      { fs_impl :=
          { buffers :=
              [(0, { buf := ({ header := { tombstone := 0, timestamp := 5
                                         , key_size := 1, value_size := 1 }
                             , key := [107], value := some [118] } : Entry).serialize ++
                       (Entry.new_empty [107]).serialize
                   , pos := 33 })]
          , active := 0 }
      , cursor := 33
      , active_fd := 0 } 0 0 []
      = .ok [([107], { fd := 0, value_size := 0, offset := 17, timestamp := 0 })] := by
  simp [recoverLoop.eq_def, Fs.get_chunk, Fs.active_size, TestFs.read_exact_at,
    TestFile.read_at, TestFile.len, alistLookup, Header.decode, Header.LEN, readLE,
    Header.data_size, Header.entry_size, kdInsert, Entry.serialize, Entry.new_empty,
    Header.serialize, leBytes]

/-- Claim C4 (the code refutes the deadline part of the cycle-control
claim): `End(now)` in Compact does transition to `Wait(now)` (first
conjunct), `poll_timeout` returns `since + 1h` in Wait and absent in
Compact (second and third conjuncts), but `handle_timeout` at *any*
time `since + 1h + d` at or past the deadline leaves the machine in
Wait and enqueues nothing (fourth conjunct): the source compares
`last_sleep.duration_since(now)` — which saturates to zero for any
`now ≥ last_sleep` — against one hour, inverting the intended
direction, so the machine never returns to Compact. -/
theorem compactor_cycle_control :
    (∀ (q : List Operation) (now : Nat),
      Compactor.handle_input { operations := q, state := CState.compact } (CInput.fileEnd now)
        = { operations := q, state := CState.wait now })
    ∧ (∀ (q : List Operation) (since : Nat),
      Compactor.poll_timeout { operations := q, state := CState.wait since }
        = some (since + 3600))
    ∧ (∀ (q : List Operation),
      Compactor.poll_timeout { operations := q, state := CState.compact } = none)
    ∧ (∀ (q : List Operation) (since d : Nat),
      Compactor.handle_timeout { operations := q, state := CState.wait since }
          (since + 3600 + d)
        = { operations := q, state := CState.wait since }) := by
  refine ⟨fun _ _ => rfl, fun _ _ => rfl, fun _ => rfl, fun q since d => ?_⟩
  have hz : since - (since + 3600 + d) = 0 := by omega
  simp [Compactor.handle_timeout, hz, Compactor.HOUR]

/-- Claim C5 (the code refutes the record-classification claim): in
the Compact state an `Entry` input — tombstone or not — enqueues *no*
operation at all (first conjunct): the tombstone/`CheckKeydir`
classification described in the module's own comment is commented out
in `Compactor::handle_input`. The reply handling agrees with the
claim: `MatchKeydir` enqueues `AddImmutable` (CopyLive) then `AddHint`
(EmitHint) in that order, and `NotMatchkeydir` enqueues `Ignore`
(Drop) — second and third conjuncts. -/
theorem compactor_classification :
    (∀ (q : List Operation) (e : Entry),
      Compactor.handle_input { operations := q, state := CState.compact } (CInput.entry e)
        = { operations := q, state := CState.compact })
    ∧ (∀ (q : List Operation),
      Compactor.handle_input { operations := q, state := CState.compact } CInput.matchKeydir
        = { operations := q ++ [Operation.addImmutable, Operation.addHint]
          , state := CState.compact })
    ∧ (∀ (q : List Operation),
      Compactor.handle_input { operations := q, state := CState.compact } CInput.notMatchKeydir
        = { operations := q ++ [Operation.ignore], state := CState.compact }) :=
  ⟨fun _ _ => rfl, fun _ => rfl, fun _ => rfl⟩

/-- Claim C6 (the code refutes the hard-bounds claim): for *every* key
and value — including the empty key (`key_size = 0`), keys longer than
65534 bytes, and values larger than `2^32 - 2` bytes —
`Entry::new_encoded` succeeds (given a successful clock read),
returning an entry whose sizes are the truncating casts of the actual
lengths; there is no Codec error path (the only bounds checks are
`debug_assert!`s, and `CaskError` has no size-violation variant). -/
theorem codec_bounds_not_enforced (key value : List Nat) (ts : Nat) :
    Entry.new_encoded key value (Except.ok ts)
      = .ok { header := { tombstone := 0, timestamp := ts
                        , key_size := key.length % 2 ^ 16
                        , value_size := value.length % 2 ^ 32 }
            , key := key, value := some value } := rfl

/-- Claim C7 (confirmed): the delete contract of `Cask::remove`. If
the key is absent from the key directory, `remove` succeeds and leaves
the store untouched (no I/O). If the key is present, the key is
removed from the key directory *regardless of the outcome of the
append* (removal precedes the append), the record appended is a
tombstone, a successful append installs the post-append file state and
returns success, and a failed append surfaces the file-layer error.
After any successful `remove(key)`, `get(key)` fails with `NotFound`. -/
theorem delete_contract (c : Cask) (key : List Nat) :
    (kdLookup c.keydir key = none → c.remove key = (c, .ok ()))
    ∧ ((c.remove key).2 = .ok () → (c.remove key).1.get key = .error CaskError.notFound)
    ∧ (∀ ce, kdLookup c.keydir key = some ce →
        (c.remove key).1.keydir = kdRemove c.keydir key
        ∧ (Entry.new_empty key).is_tombstone = true
        ∧ (∀ fs1 ce1, c.fs.write_entry (Entry.new_empty key) = .ok (fs1, ce1) →
            c.remove key =
              ({ fs := fs1, keydir := kdRemove c.keydir key, threshold := c.threshold }, .ok ()))
        ∧ (∀ e, c.fs.write_entry (Entry.new_empty key) = .error e →
            c.remove key =
              ({ fs := c.fs, keydir := kdRemove c.keydir key, threshold := c.threshold },
               .error (CaskError.fs e)))) := by
  cases hkd : kdLookup c.keydir key with
  | none =>
      have hr : c.remove key = (c, .ok ()) := by
        simp [Cask.remove, hkd]
      refine ⟨fun _ => hr, fun _ => ?_, fun ce hce => by simp at hce⟩
      rw [hr]
      simp [Cask.get, hkd]
  | some ce0 =>
      cases hw : c.fs.write_entry (Entry.new_empty key) with
      | ok p =>
          obtain ⟨fs1, ce1⟩ := p
          have hr : c.remove key =
              ({ fs := fs1, keydir := kdRemove c.keydir key, threshold := c.threshold }, .ok ()) := by
            simp [Cask.remove, hkd, hw]
          refine ⟨fun hn => by simp at hn, fun _ => ?_, fun ce hce => ?_⟩
          · rw [hr]
            simp [Cask.get, kdLookup_kdRemove]
          · refine ⟨by rw [hr], rfl, fun fs1' ce1' hw' => ?_, fun e he => by simp at he⟩
            simp only [Except.ok.injEq, Prod.mk.injEq] at hw'
            rw [hr, hw'.1]
      | error e0 =>
          have hr : c.remove key =
              ({ fs := c.fs, keydir := kdRemove c.keydir key, threshold := c.threshold },
               .error (CaskError.fs e0)) := by
            simp [Cask.remove, hkd, hw]
          refine ⟨fun hn => by simp at hn, fun hok => ?_, fun ce hce => ?_⟩
          · rw [hr] at hok
            simp at hok
          · refine ⟨by rw [hr], rfl, fun fs1' ce1' hw' => by simp at hw', fun e he => ?_⟩
            simp only [Except.error.injEq] at he
            rw [hr, he]

/-- Witness for `delete_contract`: on the concrete store `caskA` (key
`[1]` present), after the delete a get of `[1]` fails with `NotFound`;
and deleting the absent key `[2]` returns the store unchanged with
success. -/
theorem delete_contract_witness :
    (caskA.remove [1]).1.get [1] = .error CaskError.notFound
    ∧ caskA.remove [2] = (caskA, .ok ()) :=
  ⟨(delete_contract caskA [1]).2.1 rfl, (delete_contract caskA [2]).1 rfl⟩

/-- Claim C8 (confirmed): the rotation threshold of `Cask::insert`.
For a successful `insert` over the in-memory file system, the active
file is swapped if and only if the post-append size
`cursor + (15 + key_size + value_size)` has reached
`active_threshold`; a swap installs a fresh descriptor
(`old impl active + 1`) bound to an empty file with the cursor reset
to 0; without a swap the cursor is exactly the post-append size and
the descriptor is unchanged; and (last conjunct) from any pre-state
below the threshold the post-append size overshoots the threshold by
less than one record. -/
theorem rotation_threshold (c : Cask) (k v : List Nat) (ts : Nat) (c1 : Cask)
    (h : c.insert k v (Except.ok ts) = .ok c1) :
    (c.threshold ≤ c.fs.cursor + (15 + k.length + v.length) →
        c1.fs.cursor = 0
        ∧ c1.fs.active_fd = c.fs.fs_impl.active + 1
        ∧ alistLookup c1.fs.fs_impl.buffers c1.fs.active_fd = some TestFile.new)
    ∧ (c.fs.cursor + (15 + k.length + v.length) < c.threshold →
        c1.fs.cursor = c.fs.cursor + (15 + k.length + v.length)
        ∧ c1.fs.active_fd = c.fs.active_fd)
    ∧ (c1.fs.cursor = 0 → c.threshold ≤ c.fs.cursor + (15 + k.length + v.length))
    ∧ (c.fs.cursor < c.threshold →
        c.fs.cursor + (15 + k.length + v.length) < c.threshold + (15 + k.length + v.length)) := by
  have hE : Entry.new_encoded k v (Except.ok ts)
      = .ok { header := { tombstone := 0, timestamp := ts
                        , key_size := k.length % 2 ^ 16
                        , value_size := v.length % 2 ^ 32 }
            , key := k, value := some v } := rfl
  simp only [Cask.insert, hE] at h
  cases hw : c.fs.write_entry
      { header := { tombstone := 0, timestamp := ts
                  , key_size := k.length % 2 ^ 16
                  , value_size := v.length % 2 ^ 32 }
      , key := k, value := some v } with
  | error e0 => rw [hw] at h; cases h
  | ok p =>
      obtain ⟨fs1, ce⟩ := p
      obtain ⟨hcur, hafd, hact, _hoff, _hfd, _hvs, _hts⟩ := Fs.write_entry_ok _ _ _ _ hw
      have hlen : ({ header := { tombstone := 0, timestamp := ts
                               , key_size := k.length % 2 ^ 16
                               , value_size := v.length % 2 ^ 32 }
                   , key := k, value := some v } : Entry).serialize.length
          = 15 + k.length + v.length := by
        rw [Entry.serialize_total_length]
        rfl
      rw [hw] at h
      simp only [Except.ok.injEq] at h
      subst h
      rw [hlen] at hcur
      by_cases hth : c.threshold ≤ fs1.active_size
      · have hs : (if fs1.active_size ≥ c.threshold then fs1.swap_active else fs1)
            = fs1.swap_active := if_pos hth
        have hth' : c.threshold ≤ c.fs.cursor + (15 + k.length + v.length) := by
          simpa [Fs.active_size, hcur] using hth
        refine ⟨fun _ => ?_, fun hlt => ?_, fun _ => hth', fun _ => by omega⟩
        · simp only [hs]
          refine ⟨rfl, ?_, ?_⟩
          · simp [Fs.swap_active, TestFs.new_active, hact]
          · simp [Fs.swap_active, TestFs.new_active, alistLookup]
        · omega
      · have hs : (if fs1.active_size ≥ c.threshold then fs1.swap_active else fs1) = fs1 :=
          if_neg hth
        have hth' : ¬ c.threshold ≤ c.fs.cursor + (15 + k.length + v.length) := by
          simpa [Fs.active_size, hcur] using hth
        refine ⟨fun hge => absurd hge hth', fun _ => ?_, fun h0 => ?_, fun _ => by omega⟩
        · simp only [hs]
          exact ⟨by omega, hafd⟩
        · simp only [hs] at h0
          omega

/-- Witness for `rotation_threshold`: the concrete store `caskB`
(threshold 17) with the 17-byte record `put([1], [2])`: the insert
yields `caskBInserted`, whose active file was rotated — cursor 0,
fresh descriptor bound to an empty file. -/
theorem rotation_threshold_witness :
    caskB.insert [1] [2] (Except.ok 0) = .ok caskBInserted
    ∧ ((caskB.threshold ≤ caskB.fs.cursor + (15 + 1 + 1) →
          caskBInserted.fs.cursor = 0
          ∧ caskBInserted.fs.active_fd = caskB.fs.fs_impl.active + 1
          ∧ alistLookup caskBInserted.fs.fs_impl.buffers caskBInserted.fs.active_fd
              = some TestFile.new)
        ∧ (caskB.fs.cursor + (15 + 1 + 1) < caskB.threshold →
            caskBInserted.fs.cursor = caskB.fs.cursor + (15 + 1 + 1)
            ∧ caskBInserted.fs.active_fd = caskB.fs.active_fd)
        ∧ (caskBInserted.fs.cursor = 0 →
            caskB.threshold ≤ caskB.fs.cursor + (15 + 1 + 1))
        ∧ (caskB.fs.cursor < caskB.threshold →
            caskB.fs.cursor + (15 + 1 + 1) < caskB.threshold + (15 + 1 + 1))) :=
  ⟨rfl, rotation_threshold caskB [1] [2] 0 caskBInserted rfl⟩

/-- Claim C9 (confirmed): the record encoding. For any key and value
within the spec bounds and an in-range timestamp, the entry built by
`Entry::new_encoded` serializes to `15 + key_size + value_size` bytes;
decoding its 15-byte prefix as the packed little-endian header
(tombstone at byte 0, timestamp at 1..9, key_size at 9..11, value_size
at 11..15) recovers tombstone 0, the timestamp, and the exact key and
value lengths; and the bytes after the header are the key followed by
the value. A tombstone from `Entry::new_empty` has tombstone 1,
value_size 0, timestamp 0, serializes to `15 + key_size` bytes, and
carries no value bytes after the key. -/
theorem record_encoding (k v : List Nat) (ts : Nat) (e : Entry)
    (hk0 : 0 < k.length) (hk : k.length ≤ 65534)
    (hv : v.length ≤ 2 ^ 32 - 2) (hts : ts < 2 ^ 64)
    (he : Entry.new_encoded k v (Except.ok ts) = .ok e) :
    e.serialize.length = 15 + k.length + v.length
    ∧ Header.decode (e.serialize.take 15)
        = some { tombstone := 0, timestamp := ts, key_size := k.length, value_size := v.length }
    ∧ e.serialize.drop 15 = k ++ v
    ∧ (Entry.new_empty k).header.tombstone = 1
    ∧ (Entry.new_empty k).header.value_size = 0
    ∧ (Entry.new_empty k).header.timestamp = 0
    ∧ (Entry.new_empty k).serialize.length = 15 + k.length
    ∧ (Entry.new_empty k).serialize.drop 15 = k := by
  have hkmod : k.length % 2 ^ 16 = k.length := Nat.mod_eq_of_lt (by omega)
  have hvlt : v.length < 2 ^ 32 := lt_of_le_of_lt hv (by norm_num)
  have hvmod : v.length % 2 ^ 32 = v.length := Nat.mod_eq_of_lt hvlt
  have hee : e = { header := { tombstone := 0, timestamp := ts
                             , key_size := k.length % 2 ^ 16
                             , value_size := v.length % 2 ^ 32 }
                 , key := k, value := some v } := by
    have hE : Entry.new_encoded k v (Except.ok ts)
        = .ok { header := { tombstone := 0, timestamp := ts
                          , key_size := k.length % 2 ^ 16
                          , value_size := v.length % 2 ^ 32 }
              , key := k, value := some v } := rfl
    rw [hE] at he
    simpa using he.symm
  subst hee
  have hhdr : ({ tombstone := 0, timestamp := ts
               , key_size := k.length % 2 ^ 16
               , value_size := v.length % 2 ^ 32 } : Header)
      = { tombstone := 0, timestamp := ts, key_size := k.length, value_size := v.length } := by
    rw [hkmod, hvmod]
  refine ⟨?_, ?_, ?_, rfl, rfl, rfl, ?_, ?_⟩
  · rw [Entry.serialize_total_length]
    rfl
  · show Header.decode
        ((({ tombstone := 0, timestamp := ts
           , key_size := k.length % 2 ^ 16
           , value_size := v.length % 2 ^ 32 } : Header).serialize ++ k ++ v).take 15) = _
    rw [List.append_assoc, hhdr]
    exact Header.decode_serialize _ _ (by norm_num) hts (by show k.length < 2 ^ 16; omega) hvlt
  · show (({ tombstone := 0, timestamp := ts
           , key_size := k.length % 2 ^ 16
           , value_size := v.length % 2 ^ 32 } : Header).serialize ++ k ++ v).drop 15 = k ++ v
    rw [List.append_assoc, List.drop_left' (Header.serialize_length _)]
  · rw [Entry.serialize_total_length]
    rfl
  · show (({ tombstone := 1, timestamp := 0
           , key_size := k.length % 2 ^ 16
           , value_size := 0 } : Header).serialize ++ k ++ []).drop 15 = k
    rw [List.append_nil, List.drop_left' (Header.serialize_length _)]

/-- Witness for `record_encoding`: the record `([1], [2])` encoded at
timestamp 3 — all bounds hold and the layout facts evaluate on the
concrete entry `entryA`. -/
theorem record_encoding_witness :
    (0 < ([1] : List Nat).length) ∧ (([1] : List Nat).length ≤ 65534)
    ∧ (([2] : List Nat).length ≤ 2 ^ 32 - 2) ∧ (3 < 2 ^ 64)
    ∧ (entryA.serialize.length = 15 + 1 + 1
      ∧ Header.decode (entryA.serialize.take 15)
          = some { tombstone := 0, timestamp := 3, key_size := 1, value_size := 1 }
      ∧ entryA.serialize.drop 15 = [1] ++ [2]
      ∧ (Entry.new_empty [1]).header.tombstone = 1
      ∧ (Entry.new_empty [1]).header.value_size = 0
      ∧ (Entry.new_empty [1]).header.timestamp = 0
      ∧ (Entry.new_empty [1]).serialize.length = 15 + 1
      ∧ (Entry.new_empty [1]).serialize.drop 15 = [1]) :=
  ⟨by decide, by decide, by decide, by decide,
    record_encoding [1] [2] 3 entryA (by decide) (by decide) (by decide) (by decide) rfl⟩

/-- Claim C10 (confirmed): `Cask::remove` never rotates the active
file. For every store state and key, a delete leaves both the file
layer's cached active descriptor and the implementation's active
descriptor unchanged and never resets the cursor (first three
conjuncts) — `remove` contains no threshold check and no call to
`swap_active` — and a successful delete of a present key grows the
active file by exactly the tombstone's `15 + key_size` bytes (fourth
conjunct), so repeated deletes of present keys grow the active file
past any threshold. -/
theorem delete_never_rotates (c : Cask) (key : List Nat) :
    (c.remove key).1.fs.active_fd = c.fs.active_fd
    ∧ (c.remove key).1.fs.fs_impl.active = c.fs.fs_impl.active
    ∧ c.fs.cursor ≤ (c.remove key).1.fs.cursor
    ∧ (∀ ce, kdLookup c.keydir key = some ce → (c.remove key).2 = .ok () →
        (c.remove key).1.fs.cursor = c.fs.cursor + (15 + key.length)) := by
  cases hkd : kdLookup c.keydir key with
  | none =>
      have hr : c.remove key = (c, .ok ()) := by simp [Cask.remove, hkd]
      rw [hr]
      exact ⟨rfl, rfl, Nat.le_refl _, fun ce hce => by simp at hce⟩
  | some ce0 =>
      cases hw : c.fs.write_entry (Entry.new_empty key) with
      | ok p =>
          obtain ⟨fs1, ce1⟩ := p
          obtain ⟨hcur, hafd, hact, _⟩ := Fs.write_entry_ok _ _ _ _ hw
          have hlen : (Entry.new_empty key).serialize.length = 15 + key.length := by
            rw [Entry.serialize_total_length]
            simp [Entry.new_empty]
          have hr : c.remove key =
              ({ fs := fs1, keydir := kdRemove c.keydir key, threshold := c.threshold }, .ok ()) := by
            simp [Cask.remove, hkd, hw]
          rw [hr]
          refine ⟨hafd, hact, ?_, fun ce hce hok => ?_⟩
          · rw [hcur]; omega
          · rw [hcur, hlen]
      | error e0 =>
          have hr : c.remove key =
              ({ fs := c.fs, keydir := kdRemove c.keydir key, threshold := c.threshold },
               .error (CaskError.fs e0)) := by
            simp [Cask.remove, hkd, hw]
          rw [hr]
          exact ⟨rfl, rfl, Nat.le_refl _, fun ce hce hok => by simp at hok⟩

/-- Witness for `delete_never_rotates`: deleting the present key `[1]`
from the concrete store `caskA` grows the active file by exactly the
16-byte tombstone. -/
theorem delete_never_rotates_witness :
    (caskA.remove [1]).1.fs.cursor = caskA.fs.cursor + (15 + 1) :=
  (delete_never_rotates caskA [1]).2.2.2
    { fd := 0, value_size := 1, offset := 0, timestamp := 0 } rfl rfl
